import Mathlib

/-!
Shallow embedding of the SimpleApp operator's reconciliation engine
(`internal/controller/simpleapp_controller.go`, full variant with ingress
support).  The controller reconciles a `SimpleApp` custom resource into a
Deployment, a Service and (when the `INGRESS_CLASS_NAME` environment variable
is set) an Ingress.  API reads and writes are modelled by an explicit cluster
state together with a trace of API calls; the environment variable is an
explicit `String` argument ("" = unset, matching `os.Getenv`).
-/

namespace SimpleAppOperator

/-- `SimpleAppSpec` from `api/v1/simpleapp_types.go`. -/
structure SimpleAppSpec where
  image : String
  replicas : Int
  containerPort : Int
  servicePort : Int
deriving DecidableEq, Repr

/-- `SimpleAppStatus` from `api/v1/simpleapp_types.go`. -/
structure SimpleAppStatus where
  readyReplicas : Int
  serviceStatus : String
deriving DecidableEq, Repr

/-- The `SimpleApp` custom resource (metadata name/namespace plus spec and
status). -/
structure SimpleApp where
  name : String
  ns : String
  spec : SimpleAppSpec
  status : SimpleAppStatus
deriving DecidableEq, Repr

/-- Object metadata for dependent objects: name, namespace, labels,
annotation map (`annots`), and the controller owner reference (modelled as
the owning declaration's name, `none` when unset). -/
structure ObjMeta where
  name : String
  ns : String
  labels : List (String × String)
  annots : List (String × String)
  ownerRef : Option String
deriving DecidableEq, Repr

/-- One container of a pod template (`corev1.Container` restricted to the
fields the controller sets or reads). -/
structure Container where
  name : String
  image : String
  imagePullPolicy : String
  ports : List Int
deriving DecidableEq, Repr

/-- `appsv1.DeploymentSpec` restricted to the fields the controller sets or
reads: replica count, selector, pod-template labels, container list. -/
structure DeploymentSpec where
  replicas : Int
  selector : List (String × String)
  templateLabels : List (String × String)
  containers : List Container
deriving DecidableEq, Repr

/-- Deployment status as observed by the controller. -/
structure DeploymentStatus where
  readyReplicas : Int
deriving DecidableEq, Repr

/-- A Deployment object. -/
structure Deployment where
  meta : ObjMeta
  spec : DeploymentSpec
  status : DeploymentStatus
deriving DecidableEq, Repr

/-- One `corev1.ServicePort` (port and integer target port). -/
structure SvcPort where
  port : Int
  targetPort : Int
deriving DecidableEq, Repr

/-- `corev1.ServiceSpec` restricted to the fields the controller sets or
reads. -/
structure ServiceSpec where
  selector : List (String × String)
  ports : List SvcPort
  svcType : String
deriving DecidableEq, Repr

/-- A Service object. -/
structure KService where
  meta : ObjMeta
  spec : ServiceSpec
deriving DecidableEq, Repr

/-- One HTTP path rule of an ingress rule. -/
structure HTTPPath where
  path : String
  pathType : String
  backendName : String
  backendPort : Int
deriving DecidableEq, Repr

/-- One ingress rule: host plus HTTP paths. -/
structure IngressRule where
  host : String
  paths : List HTTPPath
deriving DecidableEq, Repr

/-- `networkingv1.IngressSpec` restricted to the fields the controller sets
or reads. -/
structure IngressSpec where
  ingressClassName : Option String
  rules : List IngressRule
deriving DecidableEq, Repr

/-- An Ingress object. -/
structure Ingress where
  meta : ObjMeta
  spec : IngressSpec
deriving DecidableEq, Repr

/-- The live cluster state visible to the controller: the stored dependent
objects of each kind. -/
structure Cluster where
  deployments : List Deployment
  services : List KService
  ingresses : List Ingress
deriving DecidableEq, Repr

/-- The empty cluster. -/
def Cluster.empty : Cluster := ⟨[], [], []⟩

/-- One API call issued by the controller.  Reads are recorded alongside the
mutating calls so that "performs no read" and "performs no write" are both
expressible over the trace. -/
inductive ApiCall where
  | readDeployment (ns name : String)
  | createDeployment (d : Deployment)
  | updateDeployment (d : Deployment)
  | readService (ns name : String)
  | createService (s : KService)
  | updateService (s : KService)
  | readIngress (ns name : String)
  | createIngress (i : Ingress)
  | updateIngress (i : Ingress)
  | updateStatus (app : SimpleApp)
deriving DecidableEq, Repr

/-- Whether an API call mutates cluster or resource state (everything except
the reads). -/
def ApiCall.isMutating : ApiCall → Bool
  | .readDeployment _ _ => false
  | .readService _ _ => false
  | .readIngress _ _ => false
  | _ => true

/-- Whether an API call is a status write on the SimpleApp resource. -/
def ApiCall.isStatusWrite : ApiCall → Bool
  | .updateStatus _ => true
  | _ => false

/-- `client.ObjectKey` matching: an object's metadata matches a
(namespace, name) key. -/
def keyMatch (m : ObjMeta) (ns name : String) : Bool :=
  m.ns == ns && m.name == name

/-- `r.Get` on Deployments: first stored deployment with the given key. -/
def Cluster.getDeployment (cl : Cluster) (ns name : String) : Option Deployment :=
  cl.deployments.find? fun d => keyMatch d.meta ns name

/-- `r.Create` on Deployments. -/
def Cluster.putDeployment (cl : Cluster) (d : Deployment) : Cluster :=
  { cl with deployments := cl.deployments ++ [d] }

/-- `r.Update` on Deployments: replace the object(s) with the updated
object's key. -/
def Cluster.replaceDeployment (cl : Cluster) (u : Deployment) : Cluster :=
  { cl with deployments :=
      cl.deployments.map fun d => if keyMatch d.meta u.meta.ns u.meta.name then u else d }

/-- `r.Get` on Services. -/
def Cluster.getService (cl : Cluster) (ns name : String) : Option KService :=
  cl.services.find? fun s => keyMatch s.meta ns name

/-- `r.Create` on Services. -/
def Cluster.putService (cl : Cluster) (s : KService) : Cluster :=
  { cl with services := cl.services ++ [s] }

/-- `r.Update` on Services. -/
def Cluster.replaceService (cl : Cluster) (u : KService) : Cluster :=
  { cl with services :=
      cl.services.map fun s => if keyMatch s.meta u.meta.ns u.meta.name then u else s }

/-- `r.Get` on Ingresses. -/
def Cluster.getIngress (cl : Cluster) (ns name : String) : Option Ingress :=
  cl.ingresses.find? fun i => keyMatch i.meta ns name

/-- `r.Create` on Ingresses. -/
def Cluster.putIngress (cl : Cluster) (i : Ingress) : Cluster :=
  { cl with ingresses := cl.ingresses ++ [i] }

/-- `r.Update` on Ingresses. -/
def Cluster.replaceIngress (cl : Cluster) (u : Ingress) : Cluster :=
  { cl with ingresses :=
      cl.ingresses.map fun i => if keyMatch i.meta u.meta.ns u.meta.name then u else i }

/-- `ctrl.SetControllerReference`: stamp the owner back-reference onto an
object's metadata. -/
def setOwner (cr : SimpleApp) (m : ObjMeta) : ObjMeta :=
  { m with ownerRef := some cr.name }

/-- The desired Deployment built at the top of `ensureDeployment`: name and
namespace of the declaration, selector and template label `{app: name}`, one
container named `app` running `cr.Spec.Image` with `cr.Spec.ContainerPort`,
before the owner reference is stamped. -/
def desiredDeployment (cr : SimpleApp) : Deployment :=
  { meta := { name := cr.name, ns := cr.ns, labels := [], annots := [], ownerRef := none }
    spec :=
      { replicas := cr.spec.replicas
        selector := [("app", cr.name)]
        templateLabels := [("app", cr.name)]
        containers :=
          [{ name := "app", image := cr.spec.image
             imagePullPolicy := "IfNotPresent"
             ports := [cr.spec.containerPort] }] }
    status := { readyReplicas := 0 } }

/-- The desired Deployment with the controller reference set (the state of
`dep` right before the Get/Create/Update logic runs). -/
def depOwned (cr : SimpleApp) : Deployment :=
  { desiredDeployment cr with meta := setOwner cr (desiredDeployment cr).meta }

/-- `ensureDeployment`: build the desired Deployment, stamp the owner
reference, then Get-and-create-or-patch.  Returns `none` exactly when the Go
code would panic (indexing `Containers[0]` of an existing deployment with an
empty container list); otherwise returns the deployment the Go function
returns, the resulting cluster, and the trace of API calls. -/
def ensureDeployment (cr : SimpleApp) (cl : Cluster) :
    Option (Deployment × Cluster × List ApiCall) :=
  let dep := depOwned cr
  match cl.getDeployment cr.ns cr.name with
  | none =>
      some (dep, cl.putDeployment dep,
        [.readDeployment cr.ns cr.name, .createDeployment dep])
  | some existing =>
      match existing.spec.containers with
      | [] => none
      | c :: rest =>
          if existing.spec.replicas != dep.spec.replicas
              || c.image != cr.spec.image then
            let u : Deployment :=
              { existing with spec :=
                  { existing.spec with
                      replicas := dep.spec.replicas
                      containers := { c with image := cr.spec.image } :: rest } }
            some (u, cl.replaceDeployment u,
              [.readDeployment cr.ns cr.name, .updateDeployment u])
          else
            some (existing, cl, [.readDeployment cr.ns cr.name])

/-- The desired Service built at the top of `ensureService`, before the
owner reference is stamped: selector `{app: name}`, a single port mapping
`servicePort → containerPort`, type ClusterIP. -/
def desiredService (cr : SimpleApp) : KService :=
  { meta := { name := cr.name, ns := cr.ns, labels := [], annots := [], ownerRef := none }
    spec :=
      { selector := [("app", cr.name)]
        ports := [{ port := cr.spec.servicePort, targetPort := cr.spec.containerPort }]
        svcType := "ClusterIP" } }

/-- The desired Service with the controller reference set. -/
def svcOwned (cr : SimpleApp) : KService :=
  { desiredService cr with meta := setOwner cr (desiredService cr).meta }

/-- `ensureService`: build the desired Service, stamp the owner reference,
then Get-and-create-or-patch on the first port's `Port`/`TargetPort`.
Returns `none` exactly when the Go code would panic (indexing `Ports[0]` of
an existing service with an empty port list). -/
def ensureService (cr : SimpleApp) (cl : Cluster) :
    Option (KService × Cluster × List ApiCall) :=
  let svc := svcOwned cr
  match cl.getService cr.ns cr.name with
  | none =>
      some (svc, cl.putService svc,
        [.readService cr.ns cr.name, .createService svc])
  | some existing =>
      match existing.spec.ports with
      | [] => none
      | p :: _ =>
          if p.port != cr.spec.servicePort
              || p.targetPort != cr.spec.containerPort then
            let u : KService :=
              { existing with spec := { existing.spec with ports := svc.spec.ports } }
            some (u, cl.replaceService u,
              [.readService cr.ns cr.name, .updateService u])
          else
            some (existing, cl, [.readService cr.ns cr.name])

/-- The key of the legacy ingress-class annotation written at creation. -/
def legacyClassKey : String := "kubernetes.io/ingress.class"

/-- The desired Ingress built in `ensureIngress` once the class name is
known, before the owner reference is stamped: name `<name>-ingress`, legacy
class annotation, class name, one host rule `<name>.local` with a single
prefix path `/` to the service on `servicePort`. -/
def desiredIngress (cr : SimpleApp) (cls : String) : Ingress :=
  { meta :=
      { name := cr.name ++ "-ingress", ns := cr.ns, labels := []
        annots := [(legacyClassKey, cls)], ownerRef := none }
    spec :=
      { ingressClassName := some cls
        rules :=
          [{ host := cr.name ++ ".local"
             paths :=
               [{ path := "/", pathType := "Prefix"
                  backendName := cr.name
                  backendPort := cr.spec.servicePort }] }] } }

/-- The desired Ingress with the controller reference set. -/
def ingOwned (cr : SimpleApp) (cls : String) : Ingress :=
  { desiredIngress cr cls with meta := setOwner cr (desiredIngress cr cls).meta }

/-- `ensureIngress`: read `INGRESS_CLASS_NAME` (the `env` argument); if it is
empty return `(nil, nil)` immediately.  Otherwise build the desired Ingress,
stamp the owner reference, then Get-and-create; on an existing ingress, patch
only when its class name is non-nil and differs from the configured class. -/
def ensureIngress (cr : SimpleApp) (env : String) (cl : Cluster) :
    Option Ingress × Cluster × List ApiCall :=
  if env = "" then (none, cl, [])
  else
    let ing := ingOwned cr env
    match cl.getIngress cr.ns (cr.name ++ "-ingress") with
    | none =>
        (some ing, cl.putIngress ing,
         [.readIngress cr.ns (cr.name ++ "-ingress"), .createIngress ing])
    | some existing =>
        match existing.spec.ingressClassName with
        | some c =>
            if c != env then
              let u : Ingress :=
                { existing with spec := { existing.spec with ingressClassName := some env } }
              (some u, cl.replaceIngress u,
               [.readIngress cr.ns (cr.name ++ "-ingress"), .updateIngress u])
            else
              (some existing, cl, [.readIngress cr.ns (cr.name ++ "-ingress")])
        | none =>
            (some existing, cl, [.readIngress cr.ns (cr.name ++ "-ingress")])

/-- Result of the initial `r.Get` on the SimpleApp in `Reconcile`: found,
not found, or a fetch error other than not-found. -/
inductive FetchResult where
  | found (app : SimpleApp)
  | notFound
  | fetchFailure
deriving DecidableEq, Repr

/-- Outcome of one reconciliation pass: success (`ctrl.Result{}, nil`), an
error returned to the caller, or a Go runtime panic. -/
inductive Outcome where
  | ok
  | errReturned
  | panicked
deriving DecidableEq, Repr

/-- `Reconcile`: fetch the SimpleApp (not-found succeeds trivially via
`client.IgnoreNotFound`; other fetch errors are returned), then run
`ensureDeployment`, `ensureService`, `ensureIngress` in order, then write
`status.readyReplicas` back when it differs from the deployment's observed
ready replicas.  Returns the final cluster, the full API-call trace and the
outcome. -/
def Reconcile (fetch : FetchResult) (env : String) (cl : Cluster) :
    Cluster × List ApiCall × Outcome :=
  match fetch with
  | .notFound => (cl, [], .ok)
  | .fetchFailure => (cl, [], .errReturned)
  | .found app =>
      match ensureDeployment app cl with
      | none => (cl, [], .panicked)
      | some (dep, cl1, c1) =>
          match ensureService app cl1 with
          | none => (cl1, c1, .panicked)
          | some (_, cl2, c2) =>
              match ensureIngress app env cl2 with
              | (_, cl3, c3) =>
                  if app.status.readyReplicas != dep.status.readyReplicas then
                    let app2 : SimpleApp :=
                      { app with status :=
                          { app.status with readyReplicas := dep.status.readyReplicas } }
                    (cl3, c1 ++ c2 ++ c3 ++ [.updateStatus app2], .ok)
                  else
                    (cl3, c1 ++ c2 ++ c3, .ok)

/-- The deployment produced by the update branch of `ensureDeployment`:
`existing` with only the replica count and the first container's image
overwritten. -/
def depPatched (cr : SimpleApp) (existing : Deployment)
    (c : Container) (rest : List Container) : Deployment :=
  { existing with spec :=
      { existing.spec with
          replicas := cr.spec.replicas
          containers := { c with image := cr.spec.image } :: rest } }

/-- The service produced by the update branch of `ensureService`: `existing`
with the whole port list overwritten by the desired single mapping. -/
def svcPatched (cr : SimpleApp) (existing : KService) : KService :=
  { existing with spec :=
      { existing.spec with
          ports := [{ port := cr.spec.servicePort, targetPort := cr.spec.containerPort }] } }

/-- The ingress produced by the update branch of `ensureIngress`: `existing`
with only the class name overwritten. -/
def ingPatched (env : String) (existing : Ingress) : Ingress :=
  { existing with spec := { existing.spec with ingressClassName := some env } }


/-- `ownedCreatesOnly owner calls` checks that every create call in the
trace creates an object whose owner back-reference is `some owner`. -/
def ownedCreatesOnly (owner : String) (calls : List ApiCall) : Bool :=
  calls.all fun c =>
    match c with
    | .createDeployment d => d.meta.ownerRef == some owner
    | .createService s => s.meta.ownerRef == some owner
    | .createIngress i => i.meta.ownerRef == some owner
    | _ => true


/-! ### Concrete objects used by the witnesses -/

/-- A sample declaration: name "a", image nginx:latest, 2 replicas,
container port 80, service port 8080. -/
def sampleApp : SimpleApp :=
  ⟨"a", "default", ⟨"nginx:latest", 2, 80, 8080⟩, ⟨0, ""⟩⟩

/-- The container of the sample deployment. -/
def sampleContainer : Container :=
  ⟨"app", "nginx:latest", "IfNotPresent", [80]⟩

/-- An existing deployment that drifted: replicas externally changed to 5
and the pod-template label `app` externally rewritten to "hacked". -/
def driftedDep : Deployment :=
  ⟨⟨"a", "default", [], [], some "a"⟩,
   ⟨5, [("app", "a")], [("app", "hacked")], [sampleContainer]⟩, ⟨0⟩⟩

/-- An existing service that drifted: its exposed port was externally
changed to 9999. -/
def driftedSvc : KService :=
  ⟨⟨"a", "default", [], [], some "a"⟩,
   ⟨[("app", "a")], [⟨9999, 80⟩], "ClusterIP"⟩⟩

/-- The host/path rule of the sample ingress. -/
def sampleRule : IngressRule :=
  ⟨"a.local", [⟨"/", "Prefix", "a", 8080⟩]⟩

/-- An existing ingress created while the route class was "traefik" (class
reference and legacy annotation both "traefik"). -/
def driftedIng : Ingress :=
  ⟨⟨"a-ingress", "default", [], [(legacyClassKey, "traefik")], some "a"⟩,
   ⟨some "traefik", [sampleRule]⟩⟩

/-- An existing ingress whose class reference is unset (nil), e.g. wiped by
an external actor; the legacy annotation still names "nginx". -/
def nilClassIng : Ingress :=
  ⟨⟨"a-ingress", "default", [], [(legacyClassKey, "nginx")], some "a"⟩,
   ⟨none, [sampleRule]⟩⟩


/-! ### Helper lemmas about the store and the branch structure of each
ensure operation -/

/-- Replacing every element matched by `p` with a `p`-satisfying element `u`
keeps `find?` successful and makes it return `u`, provided a match existed. -/
theorem find?_replace_self {α : Type} (p : α → Bool) (u : α) (hu : p u = true) :
    ∀ l : List α, (l.find? p).isSome = true →
      (l.map fun d => if p d then u else d).find? p = some u := by
  intro l
  induction l with
  | nil => intro h; simp at h
  | cons a t ih =>
      intro h
      by_cases hpa : p a = true
      · simp only [List.map_cons, if_pos hpa]
        exact List.find?_cons_of_pos _ hu
      · simp only [List.map_cons, if_neg hpa]
        rw [List.find?_cons_of_neg _ hpa]
        rw [List.find?_cons_of_neg _ hpa] at h
        exact ih h

/-- `keyMatch` unfolded to propositional equalities. -/
theorem keyMatch_iff (m : ObjMeta) (ns name : String) :
    keyMatch m ns name = true ↔ m.ns = ns ∧ m.name = name := by
  simp [keyMatch]

/-- After `replaceDeployment u`, looking up `u`'s own key yields `u`
whenever the key was present before. -/
theorem getDeployment_replace (cl : Cluster) (u : Deployment)
    (hfound : (cl.getDeployment u.meta.ns u.meta.name).isSome = true) :
    (cl.replaceDeployment u).getDeployment u.meta.ns u.meta.name = some u := by
  unfold Cluster.getDeployment Cluster.replaceDeployment at *
  exact find?_replace_self _ u (by simp [keyMatch]) _ hfound

/-- After `replaceService u`, looking up `u`'s own key yields `u` whenever
the key was present before. -/
theorem getService_replace (cl : Cluster) (u : KService)
    (hfound : (cl.getService u.meta.ns u.meta.name).isSome = true) :
    (cl.replaceService u).getService u.meta.ns u.meta.name = some u := by
  unfold Cluster.getService Cluster.replaceService at *
  exact find?_replace_self _ u (by simp [keyMatch]) _ hfound

/-- After `replaceIngress u`, looking up `u`'s own key yields `u` whenever
the key was present before. -/
theorem getIngress_replace (cl : Cluster) (u : Ingress)
    (hfound : (cl.getIngress u.meta.ns u.meta.name).isSome = true) :
    (cl.replaceIngress u).getIngress u.meta.ns u.meta.name = some u := by
  unfold Cluster.getIngress Cluster.replaceIngress at *
  exact find?_replace_self _ u (by simp [keyMatch]) _ hfound

/-- Looking up a freshly appended deployment by its own key succeeds when
the key was absent before. -/
theorem getDeployment_put (cl : Cluster) (d : Deployment)
    (habsent : cl.getDeployment d.meta.ns d.meta.name = none) :
    (cl.putDeployment d).getDeployment d.meta.ns d.meta.name = some d := by
  unfold Cluster.getDeployment Cluster.putDeployment at *
  rw [List.find?_append, habsent]
  simp [keyMatch]

/-- Looking up a freshly appended service by its own key succeeds when the
key was absent before. -/
theorem getService_put (cl : Cluster) (s : KService)
    (habsent : cl.getService s.meta.ns s.meta.name = none) :
    (cl.putService s).getService s.meta.ns s.meta.name = some s := by
  unfold Cluster.getService Cluster.putService at *
  rw [List.find?_append, habsent]
  simp [keyMatch]

/-- Looking up a freshly appended ingress by its own key succeeds when the
key was absent before. -/
theorem getIngress_put (cl : Cluster) (i : Ingress)
    (habsent : cl.getIngress i.meta.ns i.meta.name = none) :
    (cl.putIngress i).getIngress i.meta.ns i.meta.name = some i := by
  unfold Cluster.getIngress Cluster.putIngress at *
  rw [List.find?_append, habsent]
  simp [keyMatch]

/-- Create branch of `ensureDeployment`. -/
theorem ensureDeployment_create (cr : SimpleApp) (cl : Cluster)
    (h : cl.getDeployment cr.ns cr.name = none) :
    ensureDeployment cr cl = some (depOwned cr, cl.putDeployment (depOwned cr),
      [.readDeployment cr.ns cr.name, .createDeployment (depOwned cr)]) := by
  simp [ensureDeployment, h]

/-- Update branch of `ensureDeployment`: the replica count or the first
container's image differs. -/
theorem ensureDeployment_update (cr : SimpleApp) (cl : Cluster)
    (existing : Deployment) (c : Container) (rest : List Container)
    (hget : cl.getDeployment cr.ns cr.name = some existing)
    (hcont : existing.spec.containers = c :: rest)
    (hdiff : existing.spec.replicas ≠ cr.spec.replicas ∨ c.image ≠ cr.spec.image) :
    ensureDeployment cr cl = some (depPatched cr existing c rest,
      cl.replaceDeployment (depPatched cr existing c rest),
      [.readDeployment cr.ns cr.name, .updateDeployment (depPatched cr existing c rest)]) := by
  have hcond : (existing.spec.replicas != (depOwned cr).spec.replicas
      || c.image != cr.spec.image) = true := by
    rcases hdiff with hd | hd <;> simp [depOwned, desiredDeployment, bne_iff_ne, hd]
  simp only [ensureDeployment, hget, hcont, hcond, if_true]
  rfl

/-- No-op branch of `ensureDeployment`: both compared fields match. -/
theorem ensureDeployment_skip (cr : SimpleApp) (cl : Cluster)
    (existing : Deployment) (c : Container) (rest : List Container)
    (hget : cl.getDeployment cr.ns cr.name = some existing)
    (hcont : existing.spec.containers = c :: rest)
    (heqr : existing.spec.replicas = cr.spec.replicas)
    (heqi : c.image = cr.spec.image) :
    ensureDeployment cr cl = some (existing, cl, [.readDeployment cr.ns cr.name]) := by
  have hcond : (existing.spec.replicas != (depOwned cr).spec.replicas
      || c.image != cr.spec.image) = false := by
    simp [depOwned, desiredDeployment, bne, heqr, heqi]
  simp only [ensureDeployment, hget, hcont, hcond, Bool.false_eq_true, if_false]

/-- Create branch of `ensureService`. -/
theorem ensureService_create (cr : SimpleApp) (cl : Cluster)
    (h : cl.getService cr.ns cr.name = none) :
    ensureService cr cl = some (svcOwned cr, cl.putService (svcOwned cr),
      [.readService cr.ns cr.name, .createService (svcOwned cr)]) := by
  simp [ensureService, h]

/-- Update branch of `ensureService`: the first port's port or target port
differs. -/
theorem ensureService_update (cr : SimpleApp) (cl : Cluster)
    (existing : KService) (p : SvcPort) (rest : List SvcPort)
    (hget : cl.getService cr.ns cr.name = some existing)
    (hports : existing.spec.ports = p :: rest)
    (hdiff : p.port ≠ cr.spec.servicePort ∨ p.targetPort ≠ cr.spec.containerPort) :
    ensureService cr cl = some (svcPatched cr existing,
      cl.replaceService (svcPatched cr existing),
      [.readService cr.ns cr.name, .updateService (svcPatched cr existing)]) := by
  have hcond : (p.port != cr.spec.servicePort
      || p.targetPort != cr.spec.containerPort) = true := by
    rcases hdiff with hd | hd <;> simp [bne_iff_ne, hd]
  simp only [ensureService, hget, hports, hcond, if_true]
  rfl

/-- No-op branch of `ensureService`: both compared fields match. -/
theorem ensureService_skip (cr : SimpleApp) (cl : Cluster)
    (existing : KService) (p : SvcPort) (rest : List SvcPort)
    (hget : cl.getService cr.ns cr.name = some existing)
    (hports : existing.spec.ports = p :: rest)
    (heqp : p.port = cr.spec.servicePort)
    (heqt : p.targetPort = cr.spec.containerPort) :
    ensureService cr cl = some (existing, cl, [.readService cr.ns cr.name]) := by
  have hcond : (p.port != cr.spec.servicePort
      || p.targetPort != cr.spec.containerPort) = false := by
    simp [bne, heqp, heqt]
  simp only [ensureService, hget, hports, hcond, Bool.false_eq_true, if_false]

/-- Disabled branch of `ensureIngress`: empty class configuration returns
immediately with no API activity. -/
theorem ensureIngress_disabled (cr : SimpleApp) (cl : Cluster) :
    ensureIngress cr "" cl = (none, cl, []) := by
  simp [ensureIngress]

/-- Create branch of `ensureIngress`. -/
theorem ensureIngress_create (cr : SimpleApp) (env : String) (cl : Cluster)
    (henv : env ≠ "")
    (h : cl.getIngress cr.ns (cr.name ++ "-ingress") = none) :
    ensureIngress cr env cl = (some (ingOwned cr env), cl.putIngress (ingOwned cr env),
      [.readIngress cr.ns (cr.name ++ "-ingress"), .createIngress (ingOwned cr env)]) := by
  simp [ensureIngress, henv, h]

/-- Update branch of `ensureIngress`: the existing class name is set and
differs from the configured class. -/
theorem ensureIngress_update (cr : SimpleApp) (env : String) (cl : Cluster)
    (existing : Ingress) (c : String)
    (henv : env ≠ "")
    (hget : cl.getIngress cr.ns (cr.name ++ "-ingress") = some existing)
    (hcls : existing.spec.ingressClassName = some c)
    (hdiff : c ≠ env) :
    ensureIngress cr env cl = (some (ingPatched env existing),
      cl.replaceIngress (ingPatched env existing),
      [.readIngress cr.ns (cr.name ++ "-ingress"),
       .updateIngress (ingPatched env existing)]) := by
  have hcond : (c != env) = true := by simp [bne_iff_ne, hdiff]
  simp only [ensureIngress, henv, if_neg henv, hget, hcls, hcond, if_true]
  rfl

/-- No-op branch of `ensureIngress` for an existing ingress whose class is
already the configured one. -/
theorem ensureIngress_skip_same (cr : SimpleApp) (env : String) (cl : Cluster)
    (existing : Ingress)
    (henv : env ≠ "")
    (hget : cl.getIngress cr.ns (cr.name ++ "-ingress") = some existing)
    (hcls : existing.spec.ingressClassName = some env) :
    ensureIngress cr env cl =
      (some existing, cl, [.readIngress cr.ns (cr.name ++ "-ingress")]) := by
  simp [ensureIngress, henv, hget, hcls]

/-- No-op branch of `ensureIngress` for an existing ingress whose class is
unset (`nil` in Go): the nil guard skips the update. -/
theorem ensureIngress_skip_nil (cr : SimpleApp) (env : String) (cl : Cluster)
    (existing : Ingress)
    (henv : env ≠ "")
    (hget : cl.getIngress cr.ns (cr.name ++ "-ingress") = some existing)
    (hcls : existing.spec.ingressClassName = none) :
    ensureIngress cr env cl =
      (some existing, cl, [.readIngress cr.ns (cr.name ++ "-ingress")]) := by
  simp [ensureIngress, henv, hget, hcls]

/-- Keys extracted from a successful deployment lookup. -/
theorem getDeployment_key (cl : Cluster) (ns name : String) (d : Deployment)
    (h : cl.getDeployment ns name = some d) : d.meta.ns = ns ∧ d.meta.name = name := by
  unfold Cluster.getDeployment at h
  exact (keyMatch_iff _ _ _).1
    (@List.find?_some _ (fun x => keyMatch x.meta ns name) d cl.deployments h)

/-- Keys extracted from a successful service lookup. -/
theorem getService_key (cl : Cluster) (ns name : String) (s : KService)
    (h : cl.getService ns name = some s) : s.meta.ns = ns ∧ s.meta.name = name := by
  unfold Cluster.getService at h
  exact (keyMatch_iff _ _ _).1
    (@List.find?_some _ (fun x => keyMatch x.meta ns name) s cl.services h)

/-- Keys extracted from a successful ingress lookup. -/
theorem getIngress_key (cl : Cluster) (ns name : String) (i : Ingress)
    (h : cl.getIngress ns name = some i) : i.meta.ns = ns ∧ i.meta.name = name := by
  unfold Cluster.getIngress at h
  exact (keyMatch_iff _ _ _).1
    (@List.find?_some _ (fun x => keyMatch x.meta ns name) i cl.ingresses h)

/-- Running `ensureDeployment` a second time on the state produced by a
first run returns the same deployment, leaves the cluster unchanged and
performs only the read. -/
theorem ensureDeployment_ran (cr : SimpleApp) (cl cl' : Cluster)
    (d : Deployment) (cs : List ApiCall)
    (h : ensureDeployment cr cl = some (d, cl', cs)) :
    ensureDeployment cr cl' = some (d, cl', [.readDeployment cr.ns cr.name]) := by
  cases hget : cl.getDeployment cr.ns cr.name with
  | none =>
      rw [ensureDeployment_create cr cl hget] at h
      simp only [Option.some.injEq, Prod.mk.injEq] at h
      obtain ⟨hd, hcl, -⟩ := h
      rw [← hd, ← hcl]
      have hput : (cl.putDeployment (depOwned cr)).getDeployment cr.ns cr.name
          = some (depOwned cr) := getDeployment_put cl (depOwned cr) hget
      exact ensureDeployment_skip cr _ (depOwned cr) _ [] hput rfl rfl rfl
  | some existing =>
      cases hcont : existing.spec.containers with
      | nil =>
          simp only [ensureDeployment, hget, hcont] at h
          simp at h
      | cons c rest =>
          by_cases hsame : existing.spec.replicas = cr.spec.replicas ∧ c.image = cr.spec.image
          · rw [ensureDeployment_skip cr cl existing c rest hget hcont hsame.1 hsame.2] at h
            simp only [Option.some.injEq, Prod.mk.injEq] at h
            obtain ⟨hd, hcl, -⟩ := h
            rw [← hd, ← hcl]
            exact ensureDeployment_skip cr cl existing c rest hget hcont hsame.1 hsame.2
          · have hdiff := not_and_or.mp hsame
            rw [ensureDeployment_update cr cl existing c rest hget hcont hdiff] at h
            simp only [Option.some.injEq, Prod.mk.injEq] at h
            obtain ⟨hd, hcl, -⟩ := h
            rw [← hd, ← hcl]
            obtain ⟨hns, hname⟩ := getDeployment_key cl cr.ns cr.name existing hget
            have hfound : (cl.getDeployment (depPatched cr existing c rest).meta.ns
                (depPatched cr existing c rest).meta.name).isSome = true := by
              show (cl.getDeployment existing.meta.ns existing.meta.name).isSome = true
              rw [hns, hname, hget]; rfl
            have hrep := getDeployment_replace cl (depPatched cr existing c rest) hfound
            rw [show (depPatched cr existing c rest).meta.ns = cr.ns from hns,
                show (depPatched cr existing c rest).meta.name = cr.name from hname] at hrep
            exact ensureDeployment_skip cr _ (depPatched cr existing c rest)
              { c with image := cr.spec.image } rest hrep rfl rfl rfl

/-- Running `ensureService` a second time on the state produced by a first
run returns the same service, leaves the cluster unchanged and performs only
the read. -/
theorem ensureService_ran (cr : SimpleApp) (cl cl' : Cluster)
    (s : KService) (cs : List ApiCall)
    (h : ensureService cr cl = some (s, cl', cs)) :
    ensureService cr cl' = some (s, cl', [.readService cr.ns cr.name]) := by
  cases hget : cl.getService cr.ns cr.name with
  | none =>
      rw [ensureService_create cr cl hget] at h
      simp only [Option.some.injEq, Prod.mk.injEq] at h
      obtain ⟨hs, hcl, -⟩ := h
      rw [← hs, ← hcl]
      have hput : (cl.putService (svcOwned cr)).getService cr.ns cr.name
          = some (svcOwned cr) := getService_put cl (svcOwned cr) hget
      exact ensureService_skip cr _ (svcOwned cr) _ [] hput rfl rfl rfl
  | some existing =>
      cases hports : existing.spec.ports with
      | nil =>
          simp only [ensureService, hget, hports] at h
          simp at h
      | cons p rest =>
          by_cases hsame : p.port = cr.spec.servicePort ∧ p.targetPort = cr.spec.containerPort
          · rw [ensureService_skip cr cl existing p rest hget hports hsame.1 hsame.2] at h
            simp only [Option.some.injEq, Prod.mk.injEq] at h
            obtain ⟨hs, hcl, -⟩ := h
            rw [← hs, ← hcl]
            exact ensureService_skip cr cl existing p rest hget hports hsame.1 hsame.2
          · have hdiff := not_and_or.mp hsame
            rw [ensureService_update cr cl existing p rest hget hports hdiff] at h
            simp only [Option.some.injEq, Prod.mk.injEq] at h
            obtain ⟨hs, hcl, -⟩ := h
            rw [← hs, ← hcl]
            obtain ⟨hns, hname⟩ := getService_key cl cr.ns cr.name existing hget
            have hfound : (cl.getService (svcPatched cr existing).meta.ns
                (svcPatched cr existing).meta.name).isSome = true := by
              show (cl.getService existing.meta.ns existing.meta.name).isSome = true
              rw [hns, hname, hget]; rfl
            have hrep := getService_replace cl (svcPatched cr existing) hfound
            rw [show (svcPatched cr existing).meta.ns = cr.ns from hns,
                show (svcPatched cr existing).meta.name = cr.name from hname] at hrep
            exact ensureService_skip cr _ (svcPatched cr existing)
              { port := cr.spec.servicePort, targetPort := cr.spec.containerPort } []
              hrep rfl rfl rfl

/-- Running `ensureIngress` a second time on the state produced by a first
run (same declaration, same configured class) returns the same result,
leaves the cluster unchanged, and performs at most the read. -/
theorem ensureIngress_ran (cr : SimpleApp) (env : String) (cl cl' : Cluster)
    (i : Option Ingress) (cs : List ApiCall)
    (h : ensureIngress cr env cl = (i, cl', cs)) :
    ensureIngress cr env cl' =
      (i, cl', if env = "" then [] else [.readIngress cr.ns (cr.name ++ "-ingress")]) := by
  by_cases henv : env = ""
  · subst henv
    rw [ensureIngress_disabled cr cl] at h
    simp only [Prod.mk.injEq] at h
    obtain ⟨hi, hcl, -⟩ := h
    rw [← hi, ← hcl]
    simpa using ensureIngress_disabled cr cl
  · rw [if_neg henv]
    cases hget : cl.getIngress cr.ns (cr.name ++ "-ingress") with
    | none =>
        rw [ensureIngress_create cr env cl henv hget] at h
        simp only [Prod.mk.injEq] at h
        obtain ⟨hi, hcl, -⟩ := h
        rw [← hi, ← hcl]
        have hput : (cl.putIngress (ingOwned cr env)).getIngress cr.ns (cr.name ++ "-ingress")
            = some (ingOwned cr env) := getIngress_put cl (ingOwned cr env) hget
        exact ensureIngress_skip_same cr env _ (ingOwned cr env) henv hput rfl
    | some existing =>
        cases hcls : existing.spec.ingressClassName with
        | none =>
            rw [ensureIngress_skip_nil cr env cl existing henv hget hcls] at h
            simp only [Prod.mk.injEq] at h
            obtain ⟨hi, hcl, -⟩ := h
            rw [← hi, ← hcl]
            exact ensureIngress_skip_nil cr env cl existing henv hget hcls
        | some c =>
            by_cases hsame : c = env
            · subst hsame
              rw [ensureIngress_skip_same cr c cl existing henv hget hcls] at h
              simp only [Prod.mk.injEq] at h
              obtain ⟨hi, hcl, -⟩ := h
              rw [← hi, ← hcl]
              exact ensureIngress_skip_same cr c cl existing henv hget hcls
            · rw [ensureIngress_update cr env cl existing c henv hget hcls hsame] at h
              simp only [Prod.mk.injEq] at h
              obtain ⟨hi, hcl, -⟩ := h
              rw [← hi, ← hcl]
              obtain ⟨hns, hname⟩ := getIngress_key cl cr.ns (cr.name ++ "-ingress") existing hget
              have hfound : (cl.getIngress (ingPatched env existing).meta.ns
                  (ingPatched env existing).meta.name).isSome = true := by
                show (cl.getIngress existing.meta.ns existing.meta.name).isSome = true
                rw [hns, hname, hget]; rfl
              have hrep := getIngress_replace cl (ingPatched env existing) hfound
              rw [show (ingPatched env existing).meta.ns = cr.ns from hns,
                  show (ingPatched env existing).meta.name = cr.name ++ "-ingress" from hname] at hrep
              exact ensureIngress_skip_same cr env _ (ingPatched env existing) henv hrep rfl

/-- `ensureDeployment` never touches stored services or ingresses. -/
theorem ensureDeployment_frame (cr : SimpleApp) (cl : Cluster)
    (r : Deployment × Cluster × List ApiCall)
    (h : ensureDeployment cr cl = some r) :
    r.2.1.services = cl.services ∧ r.2.1.ingresses = cl.ingresses := by
  cases hget : cl.getDeployment cr.ns cr.name with
  | none =>
      rw [ensureDeployment_create cr cl hget] at h
      injection h with h'
      subst h'
      exact ⟨rfl, rfl⟩
  | some existing =>
      cases hcont : existing.spec.containers with
      | nil =>
          simp only [ensureDeployment, hget, hcont] at h
          simp at h
      | cons c rest =>
          by_cases hsame : existing.spec.replicas = cr.spec.replicas ∧ c.image = cr.spec.image
          · rw [ensureDeployment_skip cr cl existing c rest hget hcont hsame.1 hsame.2] at h
            injection h with h'
            subst h'
            exact ⟨rfl, rfl⟩
          · rw [ensureDeployment_update cr cl existing c rest hget hcont
              (not_and_or.mp hsame)] at h
            injection h with h'
            subst h'
            exact ⟨rfl, rfl⟩

/-- `ensureService` never touches stored deployments or ingresses. -/
theorem ensureService_frame (cr : SimpleApp) (cl : Cluster)
    (r : KService × Cluster × List ApiCall)
    (h : ensureService cr cl = some r) :
    r.2.1.deployments = cl.deployments ∧ r.2.1.ingresses = cl.ingresses := by
  cases hget : cl.getService cr.ns cr.name with
  | none =>
      rw [ensureService_create cr cl hget] at h
      injection h with h'
      subst h'
      exact ⟨rfl, rfl⟩
  | some existing =>
      cases hports : existing.spec.ports with
      | nil =>
          simp only [ensureService, hget, hports] at h
          simp at h
      | cons p rest =>
          by_cases hsame : p.port = cr.spec.servicePort ∧ p.targetPort = cr.spec.containerPort
          · rw [ensureService_skip cr cl existing p rest hget hports hsame.1 hsame.2] at h
            injection h with h'
            subst h'
            exact ⟨rfl, rfl⟩
          · rw [ensureService_update cr cl existing p rest hget hports
              (not_and_or.mp hsame)] at h
            injection h with h'
            subst h'
            exact ⟨rfl, rfl⟩

/-- `ensureIngress` never touches stored deployments or services. -/
theorem ensureIngress_frame (cr : SimpleApp) (env : String) (cl : Cluster) :
    (ensureIngress cr env cl).2.1.deployments = cl.deployments
    ∧ (ensureIngress cr env cl).2.1.services = cl.services := by
  by_cases henv : env = ""
  · subst henv
    rw [ensureIngress_disabled cr cl]
    exact ⟨rfl, rfl⟩
  · cases hget : cl.getIngress cr.ns (cr.name ++ "-ingress") with
    | none =>
        rw [ensureIngress_create cr env cl henv hget]
        exact ⟨rfl, rfl⟩
    | some existing =>
        cases hcls : existing.spec.ingressClassName with
        | none =>
            rw [ensureIngress_skip_nil cr env cl existing henv hget hcls]
            exact ⟨rfl, rfl⟩
        | some c =>
            by_cases hsame : c = env
            · subst hsame
              rw [ensureIngress_skip_same cr c cl existing henv hget hcls]
              exact ⟨rfl, rfl⟩
            · rw [ensureIngress_update cr env cl existing c henv hget hcls hsame]
              exact ⟨rfl, rfl⟩

/-- `ownedCreatesOnly` distributes over trace concatenation. -/
theorem ownedCreatesOnly_append (owner : String) (l₁ l₂ : List ApiCall) :
    ownedCreatesOnly owner (l₁ ++ l₂)
      = (ownedCreatesOnly owner l₁ && ownedCreatesOnly owner l₂) := by
  simp [ownedCreatesOnly, List.all_append]

/-- Every create issued by `ensureDeployment` carries the owner
back-reference. -/
theorem ensureDeployment_owned (cr : SimpleApp) (cl : Cluster)
    (r : Deployment × Cluster × List ApiCall)
    (h : ensureDeployment cr cl = some r) :
    ownedCreatesOnly cr.name r.2.2 = true := by
  cases hget : cl.getDeployment cr.ns cr.name with
  | none =>
      rw [ensureDeployment_create cr cl hget] at h
      injection h with h'
      subst h'
      simp [ownedCreatesOnly, depOwned, setOwner, desiredDeployment]
  | some existing =>
      cases hcont : existing.spec.containers with
      | nil =>
          simp only [ensureDeployment, hget, hcont] at h
          simp at h
      | cons c rest =>
          by_cases hsame : existing.spec.replicas = cr.spec.replicas ∧ c.image = cr.spec.image
          · rw [ensureDeployment_skip cr cl existing c rest hget hcont hsame.1 hsame.2] at h
            injection h with h'
            subst h'
            simp [ownedCreatesOnly]
          · rw [ensureDeployment_update cr cl existing c rest hget hcont
              (not_and_or.mp hsame)] at h
            injection h with h'
            subst h'
            simp [ownedCreatesOnly]

/-- Every create issued by `ensureService` carries the owner
back-reference. -/
theorem ensureService_owned (cr : SimpleApp) (cl : Cluster)
    (r : KService × Cluster × List ApiCall)
    (h : ensureService cr cl = some r) :
    ownedCreatesOnly cr.name r.2.2 = true := by
  cases hget : cl.getService cr.ns cr.name with
  | none =>
      rw [ensureService_create cr cl hget] at h
      injection h with h'
      subst h'
      simp [ownedCreatesOnly, svcOwned, setOwner, desiredService]
  | some existing =>
      cases hports : existing.spec.ports with
      | nil =>
          simp only [ensureService, hget, hports] at h
          simp at h
      | cons p rest =>
          by_cases hsame : p.port = cr.spec.servicePort ∧ p.targetPort = cr.spec.containerPort
          · rw [ensureService_skip cr cl existing p rest hget hports hsame.1 hsame.2] at h
            injection h with h'
            subst h'
            simp [ownedCreatesOnly]
          · rw [ensureService_update cr cl existing p rest hget hports
              (not_and_or.mp hsame)] at h
            injection h with h'
            subst h'
            simp [ownedCreatesOnly]

/-- Every create issued by `ensureIngress` carries the owner
back-reference. -/
theorem ensureIngress_owned (cr : SimpleApp) (env : String) (cl : Cluster) :
    ownedCreatesOnly cr.name (ensureIngress cr env cl).2.2 = true := by
  by_cases henv : env = ""
  · subst henv
    rw [ensureIngress_disabled cr cl]
    simp [ownedCreatesOnly]
  · cases hget : cl.getIngress cr.ns (cr.name ++ "-ingress") with
    | none =>
        rw [ensureIngress_create cr env cl henv hget]
        simp [ownedCreatesOnly, ingOwned, setOwner, desiredIngress]
    | some existing =>
        cases hcls : existing.spec.ingressClassName with
        | none =>
            rw [ensureIngress_skip_nil cr env cl existing henv hget hcls]
            simp [ownedCreatesOnly]
        | some c =>
            by_cases hsame : c = env
            · subst hsame
              rw [ensureIngress_skip_same cr c cl existing henv hget hcls]
              simp [ownedCreatesOnly]
            · rw [ensureIngress_update cr env cl existing c henv hget hcls hsame]
              simp [ownedCreatesOnly]

/-- `ensureDeployment` never writes SimpleApp status. -/
theorem ensureDeployment_no_statusWrite (cr : SimpleApp) (cl : Cluster)
    (r : Deployment × Cluster × List ApiCall)
    (h : ensureDeployment cr cl = some r) :
    r.2.2.filter ApiCall.isStatusWrite = [] := by
  cases hget : cl.getDeployment cr.ns cr.name with
  | none =>
      rw [ensureDeployment_create cr cl hget] at h
      injection h with h'
      subst h'
      simp [ApiCall.isStatusWrite]
  | some existing =>
      cases hcont : existing.spec.containers with
      | nil =>
          simp only [ensureDeployment, hget, hcont] at h
          simp at h
      | cons c rest =>
          by_cases hsame : existing.spec.replicas = cr.spec.replicas ∧ c.image = cr.spec.image
          · rw [ensureDeployment_skip cr cl existing c rest hget hcont hsame.1 hsame.2] at h
            injection h with h'
            subst h'
            simp [ApiCall.isStatusWrite]
          · rw [ensureDeployment_update cr cl existing c rest hget hcont
              (not_and_or.mp hsame)] at h
            injection h with h'
            subst h'
            simp [ApiCall.isStatusWrite]

/-- `ensureService` never writes SimpleApp status. -/
theorem ensureService_no_statusWrite (cr : SimpleApp) (cl : Cluster)
    (r : KService × Cluster × List ApiCall)
    (h : ensureService cr cl = some r) :
    r.2.2.filter ApiCall.isStatusWrite = [] := by
  cases hget : cl.getService cr.ns cr.name with
  | none =>
      rw [ensureService_create cr cl hget] at h
      injection h with h'
      subst h'
      simp [ApiCall.isStatusWrite]
  | some existing =>
      cases hports : existing.spec.ports with
      | nil =>
          simp only [ensureService, hget, hports] at h
          simp at h
      | cons p rest =>
          by_cases hsame : p.port = cr.spec.servicePort ∧ p.targetPort = cr.spec.containerPort
          · rw [ensureService_skip cr cl existing p rest hget hports hsame.1 hsame.2] at h
            injection h with h'
            subst h'
            simp [ApiCall.isStatusWrite]
          · rw [ensureService_update cr cl existing p rest hget hports
              (not_and_or.mp hsame)] at h
            injection h with h'
            subst h'
            simp [ApiCall.isStatusWrite]

/-- `ensureIngress` never writes SimpleApp status. -/
theorem ensureIngress_no_statusWrite (cr : SimpleApp) (env : String) (cl : Cluster) :
    (ensureIngress cr env cl).2.2.filter ApiCall.isStatusWrite = [] := by
  by_cases henv : env = ""
  · subst henv
    rw [ensureIngress_disabled cr cl]
    simp
  · cases hget : cl.getIngress cr.ns (cr.name ++ "-ingress") with
    | none =>
        rw [ensureIngress_create cr env cl henv hget]
        simp [ApiCall.isStatusWrite]
    | some existing =>
        cases hcls : existing.spec.ingressClassName with
        | none =>
            rw [ensureIngress_skip_nil cr env cl existing henv hget hcls]
            simp [ApiCall.isStatusWrite]
        | some c =>
            by_cases hsame : c = env
            · subst hsame
              rw [ensureIngress_skip_same cr c cl existing henv hget hcls]
              simp [ApiCall.isStatusWrite]
            · rw [ensureIngress_update cr env cl existing c henv hget hcls hsame]
              simp [ApiCall.isStatusWrite]

/-- Unfolding of a successful `Reconcile` pass through the status step. -/
theorem Reconcile_found (app : SimpleApp) (env : String) (cl : Cluster)
    (dep : Deployment) (cl1 : Cluster) (c1 : List ApiCall)
    (svc : KService) (cl2 : Cluster) (c2 : List ApiCall)
    (h1 : ensureDeployment app cl = some (dep, cl1, c1))
    (h2 : ensureService app cl1 = some (svc, cl2, c2)) :
    Reconcile (.found app) env cl =
      ((ensureIngress app env cl2).2.1,
       c1 ++ c2 ++ (ensureIngress app env cl2).2.2 ++
         (if app.status.readyReplicas != dep.status.readyReplicas then
            [ApiCall.updateStatus
              { app with status :=
                  { readyReplicas := dep.status.readyReplicas
                    serviceStatus := app.status.serviceStatus } }]
          else []),
       .ok) := by
  rcases hI : ensureIngress app env cl2 with ⟨i3, cl3, c3⟩
  simp only [Reconcile, h1, h2, hI]
  by_cases hst : (app.status.readyReplicas != dep.status.readyReplicas) = true
  · simp [hst]
  · simp [hst]

/-! ### Claims -/

/-- C1: for every declaration with image "nginx:latest", replicas 2,
containerPort 80, servicePort 8080, reconciled from an empty cluster while
no route class is configured, the pass succeeds and produces exactly one
Deployment named after the declaration with 2 replicas and a single
container "app" running nginx:latest exposing port 80, exactly one
ClusterIP Service with selector {app: name} forwarding 8080 to target 80,
and no Ingress object. -/
theorem create_then_converge (name ns : String) (st : SimpleAppStatus) :
    (Reconcile (.found ⟨name, ns, ⟨"nginx:latest", 2, 80, 8080⟩, st⟩) "" Cluster.empty).1 =
      { deployments :=
          [{ meta := { name := name, ns := ns, labels := [], annots := [], ownerRef := some name }
             spec :=
               { replicas := 2
                 selector := [("app", name)]
                 templateLabels := [("app", name)]
                 containers :=
                   [{ name := "app", image := "nginx:latest"
                      imagePullPolicy := "IfNotPresent", ports := [80] }] }
             status := { readyReplicas := 0 } }]
        services :=
          [{ meta := { name := name, ns := ns, labels := [], annots := [], ownerRef := some name }
             spec :=
               { selector := [("app", name)]
                 ports := [{ port := 8080, targetPort := 80 }]
                 svcType := "ClusterIP" } }]
        ingresses := [] }
    ∧ (Reconcile (.found ⟨name, ns, ⟨"nginx:latest", 2, 80, 8080⟩, st⟩) "" Cluster.empty).2.2
        = .ok := by
  have h1 := ensureDeployment_create ⟨name, ns, ⟨"nginx:latest", 2, 80, 8080⟩, st⟩
    Cluster.empty rfl
  have h2 := ensureService_create ⟨name, ns, ⟨"nginx:latest", 2, 80, 8080⟩, st⟩
    (Cluster.empty.putDeployment (depOwned ⟨name, ns, ⟨"nginx:latest", 2, 80, 8080⟩, st⟩)) rfl
  rw [Reconcile_found _ "" _ _ _ _ _ _ _ h1 h2]
  exact ⟨rfl, rfl⟩

/-- C2: running each ensure operation a second time against the state
produced by its first run, with the declaration and route-class
configuration unchanged, returns the same object, leaves the cluster
unchanged and performs zero mutating API calls on the second run. -/
theorem ensure_idempotent_second_run (cr : SimpleApp) (env : String)
    (cl₁ cl₂ cl₃ : Cluster) (d : Deployment) (cl₁' : Cluster) (cs₁ : List ApiCall)
    (s : KService) (cl₂' : Cluster) (cs₂ : List ApiCall)
    (i : Option Ingress) (cl₃' : Cluster) (cs₃ : List ApiCall)
    (h₁ : ensureDeployment cr cl₁ = some (d, cl₁', cs₁))
    (h₂ : ensureService cr cl₂ = some (s, cl₂', cs₂))
    (h₃ : ensureIngress cr env cl₃ = (i, cl₃', cs₃)) :
    (∃ res, ensureDeployment cr cl₁' = some res ∧ res.1 = d ∧ res.2.1 = cl₁'
        ∧ res.2.2.filter ApiCall.isMutating = [])
    ∧ (∃ res, ensureService cr cl₂' = some res ∧ res.1 = s ∧ res.2.1 = cl₂'
        ∧ res.2.2.filter ApiCall.isMutating = [])
    ∧ ((ensureIngress cr env cl₃').1 = i ∧ (ensureIngress cr env cl₃').2.1 = cl₃'
        ∧ (ensureIngress cr env cl₃').2.2.filter ApiCall.isMutating = []) := by
  refine ⟨⟨(d, cl₁', [.readDeployment cr.ns cr.name]),
            ensureDeployment_ran cr cl₁ cl₁' d cs₁ h₁, rfl, rfl, rfl⟩,
          ⟨(s, cl₂', [.readService cr.ns cr.name]),
            ensureService_ran cr cl₂ cl₂' s cs₂ h₂, rfl, rfl, rfl⟩,
          ?_⟩
  rw [ensureIngress_ran cr env cl₃ cl₃' i cs₃ h₃]
  refine ⟨rfl, rfl, ?_⟩
  by_cases henv : env = "" <;> simp [henv, ApiCall.isMutating]

/-- Witness for C2 at a concrete first run of each operation from the empty
cluster with route class "nginx". -/
theorem ensure_idempotent_second_run_witness :
    (∃ res, ensureDeployment sampleApp (Cluster.empty.putDeployment (depOwned sampleApp))
          = some res
        ∧ res.1 = depOwned sampleApp
        ∧ res.2.1 = Cluster.empty.putDeployment (depOwned sampleApp)
        ∧ res.2.2.filter ApiCall.isMutating = [])
    ∧ (∃ res, ensureService sampleApp (Cluster.empty.putService (svcOwned sampleApp))
          = some res
        ∧ res.1 = svcOwned sampleApp
        ∧ res.2.1 = Cluster.empty.putService (svcOwned sampleApp)
        ∧ res.2.2.filter ApiCall.isMutating = [])
    ∧ ((ensureIngress sampleApp "nginx"
          (Cluster.empty.putIngress (ingOwned sampleApp "nginx"))).1
            = some (ingOwned sampleApp "nginx")
        ∧ (ensureIngress sampleApp "nginx"
            (Cluster.empty.putIngress (ingOwned sampleApp "nginx"))).2.1
              = Cluster.empty.putIngress (ingOwned sampleApp "nginx")
        ∧ (ensureIngress sampleApp "nginx"
            (Cluster.empty.putIngress (ingOwned sampleApp "nginx"))).2.2.filter
              ApiCall.isMutating = []) :=
  ensure_idempotent_second_run sampleApp "nginx" Cluster.empty Cluster.empty Cluster.empty
    (depOwned sampleApp) (Cluster.empty.putDeployment (depOwned sampleApp))
    [.readDeployment "default" "a", .createDeployment (depOwned sampleApp)]
    (svcOwned sampleApp) (Cluster.empty.putService (svcOwned sampleApp))
    [.readService "default" "a", .createService (svcOwned sampleApp)]
    (some (ingOwned sampleApp "nginx"))
    (Cluster.empty.putIngress (ingOwned sampleApp "nginx"))
    [.readIngress "default" "a-ingress", .createIngress (ingOwned sampleApp "nginx")]
    rfl rfl rfl

/-- C5: when the route-class configuration value is empty or unset,
`ensureIngress` returns no route and no error, issues no read or write of
any route object, and a full reconciliation pass leaves the stored ingress
set untouched (so a previously created route stays as it is and a fresh
declaration gets none). -/
theorem no_route_class_no_route (cr : SimpleApp) (cl : Cluster) :
    ensureIngress cr "" cl = (none, cl, [])
    ∧ (Reconcile (.found cr) "" cl).1.ingresses = cl.ingresses := by
  refine ⟨ensureIngress_disabled cr cl, ?_⟩
  cases hD : ensureDeployment cr cl with
  | none => simp [Reconcile, hD]
  | some rD =>
      obtain ⟨dep, cl1, c1⟩ := rD
      have f1 : cl1.ingresses = cl.ingresses := (ensureDeployment_frame cr cl _ hD).2
      cases hS : ensureService cr cl1 with
      | none =>
          simp only [Reconcile, hD, hS]
          exact f1
      | some rS =>
          obtain ⟨svc, cl2, c2⟩ := rS
          have f2 : cl2.ingresses = cl1.ingresses := (ensureService_frame cr cl1 _ hS).2
          simp only [Reconcile, hD, hS, ensureIngress_disabled cr cl2]
          by_cases hst : (cr.status.readyReplicas != dep.status.readyReplicas) = true
          · rw [if_pos hst]
            exact f2.trans f1
          · rw [if_neg hst]
            exact f2.trans f1

/-- C8: a reconciliation key whose declaration is not found returns success
with no API call at all (in particular no create/update/delete of any
dependent), and any other fetch error is returned to the caller. -/
theorem missing_declaration_noop (env : String) (cl : Cluster) :
    Reconcile .notFound env cl = (cl, [], .ok)
    ∧ Reconcile .fetchFailure env cl = (cl, [], .errReturned) :=
  ⟨rfl, rfl⟩

/-- C9: every create call issued during a reconciliation pass creates an
object already carrying the owner back-reference to the declaration. -/
theorem dependents_created_with_owner_ref (app : SimpleApp) (env : String) (cl : Cluster) :
    ownedCreatesOnly app.name (Reconcile (.found app) env cl).2.1 = true := by
  cases hD : ensureDeployment app cl with
  | none => simp [Reconcile, hD, ownedCreatesOnly]
  | some rD =>
      obtain ⟨dep, cl1, c1⟩ := rD
      have o1 := ensureDeployment_owned app cl _ hD
      cases hS : ensureService app cl1 with
      | none =>
          simp only [Reconcile, hD, hS]
          exact o1
      | some rS =>
          obtain ⟨svc, cl2, c2⟩ := rS
          have o2 := ensureService_owned app cl1 _ hS
          have o3 := ensureIngress_owned app env cl2
          rcases hI : ensureIngress app env cl2 with ⟨i3, cl3, c3⟩
          rw [hI] at o3
          simp only [Reconcile, hD, hS, hI]
          by_cases hst : (app.status.readyReplicas != dep.status.readyReplicas) = true
          · rw [if_pos hst, ownedCreatesOnly_append, ownedCreatesOnly_append,
              ownedCreatesOnly_append, o1, o2, o3]
            rfl
          · rw [if_neg hst, ownedCreatesOnly_append, ownedCreatesOnly_append, o1, o2, o3]
            rfl

/-- C3: for an existing workload, `ensureDeployment` compares only the
replica count and the first container's image; if either differs the single
update call rewrites exactly those two fields (metadata including labels,
the selector and the template labels are untouched, so an externally
changed `app` label is not healed); if both match, no write happens and the
existing workload is returned unmodified. -/
theorem workload_narrow_diff_surface (cr : SimpleApp) (cl : Cluster)
    (existing : Deployment) (c : Container) (rest : List Container)
    (hget : cl.getDeployment cr.ns cr.name = some existing)
    (hcont : existing.spec.containers = c :: rest) :
    (existing.spec.replicas ≠ cr.spec.replicas ∨ c.image ≠ cr.spec.image →
      ensureDeployment cr cl = some (depPatched cr existing c rest,
        cl.replaceDeployment (depPatched cr existing c rest),
        [.readDeployment cr.ns cr.name, .updateDeployment (depPatched cr existing c rest)])
      ∧ (depPatched cr existing c rest).meta = existing.meta
      ∧ (depPatched cr existing c rest).spec.selector = existing.spec.selector
      ∧ (depPatched cr existing c rest).spec.templateLabels = existing.spec.templateLabels
      ∧ (depPatched cr existing c rest).spec.replicas = cr.spec.replicas
      ∧ (depPatched cr existing c rest).spec.containers
          = { c with image := cr.spec.image } :: rest)
    ∧ (existing.spec.replicas = cr.spec.replicas ∧ c.image = cr.spec.image →
      ensureDeployment cr cl = some (existing, cl, [.readDeployment cr.ns cr.name])) := by
  constructor
  · intro hdiff
    exact ⟨ensureDeployment_update cr cl existing c rest hget hcont hdiff,
      rfl, rfl, rfl, rfl, rfl⟩
  · rintro ⟨h1, h2⟩
    exact ensureDeployment_skip cr cl existing c rest hget hcont h1 h2

/-- Witness for C3: a workload whose replicas drifted to 5 and whose `app`
template label was externally rewritten is patched back to 2 replicas by
one update that leaves the drifted label as it is. -/
theorem workload_narrow_diff_surface_witness :
    ensureDeployment sampleApp ⟨[driftedDep], [], []⟩
      = some (depPatched sampleApp driftedDep sampleContainer [],
          Cluster.replaceDeployment ⟨[driftedDep], [], []⟩
            (depPatched sampleApp driftedDep sampleContainer []),
          [.readDeployment "default" "a",
           .updateDeployment (depPatched sampleApp driftedDep sampleContainer [])])
    ∧ (depPatched sampleApp driftedDep sampleContainer []).meta = driftedDep.meta
    ∧ (depPatched sampleApp driftedDep sampleContainer []).spec.selector
        = driftedDep.spec.selector
    ∧ (depPatched sampleApp driftedDep sampleContainer []).spec.templateLabels
        = driftedDep.spec.templateLabels
    ∧ (depPatched sampleApp driftedDep sampleContainer []).spec.replicas
        = sampleApp.spec.replicas
    ∧ (depPatched sampleApp driftedDep sampleContainer []).spec.containers
        = { sampleContainer with image := sampleApp.spec.image } :: [] :=
  (workload_narrow_diff_surface sampleApp ⟨[driftedDep], [], []⟩ driftedDep
      sampleContainer [] rfl rfl).1 (Or.inl (by decide))

/-- C4: for an existing endpoint, `ensureService` compares the first port
mapping's port and target port; if either differs it patches the port list
to the desired single mapping (metadata, selector and type untouched); if
both match, no write happens and the existing endpoint is returned
unmodified. -/
theorem endpoint_port_diff_surface (cr : SimpleApp) (cl : Cluster)
    (existing : KService) (p : SvcPort) (rest : List SvcPort)
    (hget : cl.getService cr.ns cr.name = some existing)
    (hports : existing.spec.ports = p :: rest) :
    (p.port ≠ cr.spec.servicePort ∨ p.targetPort ≠ cr.spec.containerPort →
      ensureService cr cl = some (svcPatched cr existing,
        cl.replaceService (svcPatched cr existing),
        [.readService cr.ns cr.name, .updateService (svcPatched cr existing)])
      ∧ (svcPatched cr existing).meta = existing.meta
      ∧ (svcPatched cr existing).spec.selector = existing.spec.selector
      ∧ (svcPatched cr existing).spec.svcType = existing.spec.svcType
      ∧ (svcPatched cr existing).spec.ports
          = [{ port := cr.spec.servicePort, targetPort := cr.spec.containerPort }])
    ∧ (p.port = cr.spec.servicePort ∧ p.targetPort = cr.spec.containerPort →
      ensureService cr cl = some (existing, cl, [.readService cr.ns cr.name])) := by
  constructor
  · intro hdiff
    exact ⟨ensureService_update cr cl existing p rest hget hports hdiff,
      rfl, rfl, rfl, rfl⟩
  · rintro ⟨h1, h2⟩
    exact ensureService_skip cr cl existing p rest hget hports h1 h2

/-- Witness for C4: an endpoint whose exposed port drifted to 9999 is
patched back to the declared mapping 8080 → 80 by one update. -/
theorem endpoint_port_diff_surface_witness :
    ensureService sampleApp ⟨[], [driftedSvc], []⟩
      = some (svcPatched sampleApp driftedSvc,
          Cluster.replaceService ⟨[], [driftedSvc], []⟩ (svcPatched sampleApp driftedSvc),
          [.readService "default" "a", .updateService (svcPatched sampleApp driftedSvc)])
    ∧ (svcPatched sampleApp driftedSvc).meta = driftedSvc.meta
    ∧ (svcPatched sampleApp driftedSvc).spec.selector = driftedSvc.spec.selector
    ∧ (svcPatched sampleApp driftedSvc).spec.svcType = driftedSvc.spec.svcType
    ∧ (svcPatched sampleApp driftedSvc).spec.ports
        = [{ port := sampleApp.spec.servicePort, targetPort := sampleApp.spec.containerPort }] :=
  (endpoint_port_diff_surface sampleApp ⟨[], [driftedSvc], []⟩ driftedSvc
      ⟨9999, 80⟩ [] rfl rfl).1 (Or.inl (by decide))

/-- C6 counterexample: with route class "nginx" configured and an existing
route whose class reference is unset (nil) — hence different from the
resolved class — `ensureIngress` patches nothing: it returns the existing
route unchanged and performs only the read, contradicting the claim that a
differing class is always patched. -/
theorem route_class_nil_drift_not_patched :
    nilClassIng.spec.ingressClassName ≠ some "nginx"
    ∧ ensureIngress sampleApp "nginx" ⟨[], [], [nilClassIng]⟩
        = (some nilClassIng, ⟨[], [], [nilClassIng]⟩,
           [.readIngress "default" "a-ingress"]) :=
  ⟨by simp [nilClassIng], rfl⟩

/-- C6 (amended): for an existing route under a configured route class, the
only comparison field is the class reference, and a patch happens exactly
when the live class is set and differs from the resolved class; the patch
rewrites only that field (metadata and host/path rules untouched); a live
class equal to the resolved one, or unset, causes no write. -/
theorem route_class_patch_surface (cr : SimpleApp) (env : String) (cl : Cluster)
    (existing : Ingress) (c : String)
    (henv : env ≠ "")
    (hget : cl.getIngress cr.ns (cr.name ++ "-ingress") = some existing) :
    (existing.spec.ingressClassName = some c → c ≠ env →
      ensureIngress cr env cl = (some (ingPatched env existing),
        cl.replaceIngress (ingPatched env existing),
        [.readIngress cr.ns (cr.name ++ "-ingress"),
         .updateIngress (ingPatched env existing)])
      ∧ (ingPatched env existing).meta = existing.meta
      ∧ (ingPatched env existing).spec.rules = existing.spec.rules
      ∧ (ingPatched env existing).spec.ingressClassName = some env)
    ∧ (existing.spec.ingressClassName = some env →
      ensureIngress cr env cl
        = (some existing, cl, [.readIngress cr.ns (cr.name ++ "-ingress")]))
    ∧ (existing.spec.ingressClassName = none →
      ensureIngress cr env cl
        = (some existing, cl, [.readIngress cr.ns (cr.name ++ "-ingress")])) :=
  ⟨fun hcls hdiff =>
    ⟨ensureIngress_update cr env cl existing c henv hget hcls hdiff, rfl, rfl, rfl⟩,
   fun hcls => ensureIngress_skip_same cr env cl existing henv hget hcls,
   fun hcls => ensureIngress_skip_nil cr env cl existing henv hget hcls⟩

/-- Witness for C6 (amended): an existing route created under class
"traefik" is re-pointed to class "nginx" by one update that touches
neither metadata nor the host/path rules. -/
theorem route_class_patch_surface_witness :
    ensureIngress sampleApp "nginx" ⟨[], [], [driftedIng]⟩
      = (some (ingPatched "nginx" driftedIng),
         Cluster.replaceIngress ⟨[], [], [driftedIng]⟩ (ingPatched "nginx" driftedIng),
         [.readIngress "default" "a-ingress",
          .updateIngress (ingPatched "nginx" driftedIng)])
    ∧ (ingPatched "nginx" driftedIng).meta = driftedIng.meta
    ∧ (ingPatched "nginx" driftedIng).spec.rules = driftedIng.spec.rules
    ∧ (ingPatched "nginx" driftedIng).spec.ingressClassName = some "nginx" :=
  (route_class_patch_surface sampleApp "nginx" ⟨[], [], [driftedIng]⟩ driftedIng
      "traefik" (by decide) rfl).1 rfl (by decide)

/-- C7: a pass that reaches the status step writes `status.readyReplicas`
back exactly when it differs from the deployment's observed ready-replica
count, the written status changes only `readyReplicas` (the `serviceStatus`
field is carried over unchanged, never computed), and the ensure traces
contain no other status write. -/
theorem status_mirroring (app : SimpleApp) (env : String) (cl : Cluster)
    (dep : Deployment) (cl1 : Cluster) (c1 : List ApiCall)
    (svc : KService) (cl2 : Cluster) (c2 : List ApiCall)
    (h1 : ensureDeployment app cl = some (dep, cl1, c1))
    (h2 : ensureService app cl1 = some (svc, cl2, c2)) :
    Reconcile (.found app) env cl =
      ((ensureIngress app env cl2).2.1,
       c1 ++ c2 ++ (ensureIngress app env cl2).2.2 ++
         (if app.status.readyReplicas != dep.status.readyReplicas then
            [ApiCall.updateStatus
              { app with status :=
                  { readyReplicas := dep.status.readyReplicas
                    serviceStatus := app.status.serviceStatus } }]
          else []),
       .ok)
    ∧ (c1 ++ c2 ++ (ensureIngress app env cl2).2.2).filter ApiCall.isStatusWrite = [] := by
  refine ⟨Reconcile_found app env cl dep cl1 c1 svc cl2 c2 h1 h2, ?_⟩
  rw [List.filter_append, List.filter_append,
    ensureDeployment_no_statusWrite app cl _ h1,
    ensureService_no_statusWrite app cl1 _ h2,
    ensureIngress_no_statusWrite app env cl2]
  rfl

/-- Witness for C7: reconciling the sample declaration from the empty
cluster (deployment freshly created, observed ready replicas 0, stored
status 0) performs no status write. -/
theorem status_mirroring_witness :
    Reconcile (.found sampleApp) "" Cluster.empty =
      ((ensureIngress sampleApp ""
          ((Cluster.empty.putDeployment (depOwned sampleApp)).putService
            (svcOwned sampleApp))).2.1,
       [ApiCall.readDeployment "default" "a",
        ApiCall.createDeployment (depOwned sampleApp)] ++
       [ApiCall.readService "default" "a",
        ApiCall.createService (svcOwned sampleApp)] ++
       (ensureIngress sampleApp ""
          ((Cluster.empty.putDeployment (depOwned sampleApp)).putService
            (svcOwned sampleApp))).2.2 ++
         (if sampleApp.status.readyReplicas != (depOwned sampleApp).status.readyReplicas then
            [ApiCall.updateStatus
              { sampleApp with status :=
                  { readyReplicas := (depOwned sampleApp).status.readyReplicas
                    serviceStatus := sampleApp.status.serviceStatus } }]
          else []),
       .ok)
    ∧ ([ApiCall.readDeployment "default" "a",
         ApiCall.createDeployment (depOwned sampleApp)] ++
        [ApiCall.readService "default" "a",
         ApiCall.createService (svcOwned sampleApp)] ++
        (ensureIngress sampleApp ""
          ((Cluster.empty.putDeployment (depOwned sampleApp)).putService
            (svcOwned sampleApp))).2.2).filter ApiCall.isStatusWrite = [] :=
  status_mirroring sampleApp "" Cluster.empty (depOwned sampleApp)
    (Cluster.empty.putDeployment (depOwned sampleApp))
    [ApiCall.readDeployment "default" "a", ApiCall.createDeployment (depOwned sampleApp)]
    (svcOwned sampleApp)
    ((Cluster.empty.putDeployment (depOwned sampleApp)).putService (svcOwned sampleApp))
    [ApiCall.readService "default" "a", ApiCall.createService (svcOwned sampleApp)]
    rfl rfl

/-- C10: when `ensureIngress` patches an existing route because the
configured class changed, only the class reference is rewritten: the legacy
`kubernetes.io/ingress.class` annotation keeps its creation-time value, so
afterwards the class field and the legacy annotation disagree, and the next
pass performs no further write (they are never re-synchronized). -/
theorem legacy_class_annot_not_resynced (cr : SimpleApp) (env : String) (cl : Cluster)
    (existing : Ingress) (c : String)
    (henv : env ≠ "")
    (hget : cl.getIngress cr.ns (cr.name ++ "-ingress") = some existing)
    (hcls : existing.spec.ingressClassName = some c)
    (hdiff : c ≠ env)
    (hann : List.lookup legacyClassKey existing.meta.annots = some c) :
    ensureIngress cr env cl = (some (ingPatched env existing),
        cl.replaceIngress (ingPatched env existing),
        [.readIngress cr.ns (cr.name ++ "-ingress"),
         .updateIngress (ingPatched env existing)])
    ∧ (ingPatched env existing).spec.ingressClassName = some env
    ∧ List.lookup legacyClassKey (ingPatched env existing).meta.annots = some c
    ∧ (ingPatched env existing).spec.ingressClassName ≠ some c
    ∧ ensureIngress cr env (cl.replaceIngress (ingPatched env existing)) =
        (some (ingPatched env existing), cl.replaceIngress (ingPatched env existing),
         [.readIngress cr.ns (cr.name ++ "-ingress")]) := by
  refine ⟨ensureIngress_update cr env cl existing c henv hget hcls hdiff,
    rfl, hann, ?_, ?_⟩
  · show some env ≠ some c
    intro h
    exact hdiff (Option.some.inj h).symm
  · obtain ⟨hns, hname⟩ := getIngress_key cl cr.ns (cr.name ++ "-ingress") existing hget
    have hfound : (cl.getIngress (ingPatched env existing).meta.ns
        (ingPatched env existing).meta.name).isSome = true := by
      show (cl.getIngress existing.meta.ns existing.meta.name).isSome = true
      rw [hns, hname, hget]
      rfl
    have hrep := getIngress_replace cl (ingPatched env existing) hfound
    rw [show (ingPatched env existing).meta.ns = cr.ns from hns,
        show (ingPatched env existing).meta.name = cr.name ++ "-ingress" from hname] at hrep
    exact ensureIngress_skip_same cr env _ (ingPatched env existing) henv hrep rfl

/-- Witness for C10: the "traefik"-created route patched to class "nginx"
keeps its legacy annotation "traefik"; the two now disagree and a second
run performs no further write. -/
theorem legacy_class_annot_not_resynced_witness :
    ensureIngress sampleApp "nginx" ⟨[], [], [driftedIng]⟩
      = (some (ingPatched "nginx" driftedIng),
         Cluster.replaceIngress ⟨[], [], [driftedIng]⟩ (ingPatched "nginx" driftedIng),
         [.readIngress "default" "a-ingress",
          .updateIngress (ingPatched "nginx" driftedIng)])
    ∧ (ingPatched "nginx" driftedIng).spec.ingressClassName = some "nginx"
    ∧ List.lookup legacyClassKey (ingPatched "nginx" driftedIng).meta.annots = some "traefik"
    ∧ (ingPatched "nginx" driftedIng).spec.ingressClassName ≠ some "traefik"
    ∧ ensureIngress sampleApp "nginx"
        (Cluster.replaceIngress ⟨[], [], [driftedIng]⟩ (ingPatched "nginx" driftedIng)) =
        (some (ingPatched "nginx" driftedIng),
         Cluster.replaceIngress ⟨[], [], [driftedIng]⟩ (ingPatched "nginx" driftedIng),
         [.readIngress "default" "a-ingress"]) :=
  legacy_class_annot_not_resynced sampleApp "nginx" ⟨[], [], [driftedIng]⟩ driftedIng
    "traefik" (by decide) rfl rfl (by decide) rfl

end SimpleAppOperator
